import Mathlib

/-!
Shallow embedding of the MCQ exam platform's session lifecycle and scoring
engine (`src/routes/exam.js` over the schema of `src/database/db.js`).

The durable store is modelled as lists of rows in insertion (rowid) order;
`db.get` is `List.find?`, `db.all` with a WHERE clause is `List.filter`,
`ORDER BY` is a stable sort, UPDATE is a `List.map` guarded by the WHERE
predicate, and INSERT is an append.  SQL `NULL`able columns are `Option`s.
Numeric columns that carry marks (`marks`, `negative_marking`,
`marks_obtained`, `score`, `total_marks`) are rationals, which model the
JavaScript number arithmetic actually performed on them exactly (sums,
negation, `max`, comparison, division by a nonzero total).
-/

namespace MCQ

/-- Row of the `exams` table (`src/database/db.js`).  `results_published` is
kept as an integer because the code compares it with `=== 1` in one place and
by truthiness in another. -/
structure Exam where
  id : Nat
  title : String
  exam_code : String
  duration_minutes : Nat
  negative_marking : ℚ
  result_mode : String
  allow_back_navigation : Bool
  shuffle_questions : Bool
  prevent_duplicate_attempts : Bool
  is_active : Bool
  results_published : Nat
deriving DecidableEq, Repr

/-- Row of the `questions` table. -/
structure Question where
  id : Nat
  exam_id : Nat
  question_text : String
  correct_option : String
  marks : ℚ
deriving DecidableEq, Repr

/-- Row of the `candidates` table (one candidate session).  `end_time` and
`score` are NULL until finalization. -/
structure Candidate where
  id : Nat
  name : String
  email : String
  exam_id : Nat
  session_token : String
  start_time : Nat
  end_time : Option Nat
  score : Option ℚ
  total_marks : ℚ
  is_submitted : Bool
deriving DecidableEq, Repr

/-- Row of the `responses` table.  `selected_option` is NULL for an explicit
non-answer (the handler stores `selectedOption || null`). -/
structure Response where
  candidate_id : Nat
  question_id : Nat
  selected_option : Option String
  is_correct : Bool
  marks_obtained : ℚ
  answered_at : Nat
deriving DecidableEq, Repr

/-- The durable store: the four tables the exam routes touch. -/
structure DB where
  exams : List Exam
  questions : List Question
  candidates : List Candidate
  responses : List Response
deriving DecidableEq, Repr

/-- Structured failures of the route handlers (`src/routes/exam.js` error
responses). -/
inductive ApiError where
  | ValidationError
  | ExamNotFound
  | DuplicateAttempt
  | InvalidSession
  | InvalidQuestion
  | ResultNotFound
  | NotSubmitted
  | LeaderboardUnavailable
  | StorageError
deriving DecidableEq, Repr

/-- JavaScript truthiness of an optional string: `undefined`/`null` and the
empty string are falsy. -/
def optTruthy : Option String → Bool
  | none => false
  | some s => !s.isEmpty

/-- ASCII uppercase of one character: the behavior of JavaScript
`toUpperCase` on the ASCII range the platform compares (option letters and
exam codes). -/
def jsUpperChar (c : Char) : Char :=
  if 'a' ≤ c ∧ c ≤ 'z' then Char.ofNat (c.toNat - 32) else c

/-- `String.prototype.toUpperCase` on ASCII strings. -/
def jsUpper (s : String) : String := String.mk (s.data.map jsUpperChar)

/-- ASCII lowercase of one character: JavaScript `toLowerCase` on the ASCII
range. -/
def jsLowerChar (c : Char) : Char :=
  if 'A' ≤ c ∧ c ≤ 'Z' then Char.ofNat (c.toNat + 32) else c

/-- `String.prototype.toLowerCase` on ASCII strings. -/
def jsLower (s : String) : String := String.mk (s.data.map jsLowerChar)

/-- `String.prototype.trim`: strip whitespace from both ends. -/
def jsTrim (s : String) : String :=
  String.mk (((s.data.dropWhile Char.isWhitespace).reverse.dropWhile
    Char.isWhitespace).reverse)

/-- Email normalization used as the de-duplication key:
`email.trim().toLowerCase()`. -/
def normEmail (e : String) : String := jsLower (jsTrim e)

/-- Characters allowed by every class of the validation regex
`/^[^\s@]+@[^\s@]+\.[^\s@]+$/`: anything but whitespace and `@`. -/
def emailChunkOk (l : List Char) : Bool :=
  !l.isEmpty && l.all (fun c => !(c == '@') && !c.isWhitespace)

/-- The handler's email validation regex `/^[^\s@]+@[^\s@]+\.[^\s@]+$/`:
exactly one `@`, a nonempty whitespace-free local part, and a domain part
containing a `.` that is neither its first nor its last character. -/
def emailOk (s : String) : Bool :=
  let cs := s.toList
  match cs.splitOn '@' with
  | [localPart, domain] =>
      emailChunkOk localPart && emailChunkOk domain &&
        ((domain.drop 1).dropLast.contains '.')
  | _ => false

/-- `SELECT SUM(marks) as total FROM questions WHERE exam_id = ?` with the
handler's `?.total || 0` (an empty SUM is NULL, coerced to 0). -/
def totalMarksOf (db : DB) (examId : Nat) : ℚ :=
  ((db.questions.filter (fun q => q.exam_id == examId)).map (·.marks)).sum

/-- Successful payload of `POST /start`. -/
structure StartResp where
  sessionToken : String
  examTitle : String
  examCode : String
  duration : Nat
  resultMode : String
  startTime : Nat
deriving DecidableEq, Repr

/-- WHERE clause of the `POST /start` exam lookup:
`exam_code = ? AND is_active = 1` with the code uppercased. -/
def activeByCode (code : String) (ex : Exam) : Bool :=
  ex.exam_code == jsUpper code && ex.is_active

/-- WHERE clause of the duplicate-attempt lookup:
`exam_id = ? AND email = ? AND is_submitted = 1` keyed on the normalized
email. -/
def submittedFor (examId : Nat) (email : String) (c : Candidate) : Bool :=
  c.exam_id == examId && c.email == normEmail email && c.is_submitted

/-- WHERE clause of the ongoing-session lookup:
`exam_id = ? AND email = ? AND is_submitted = 0`. -/
def ongoingFor (examId : Nat) (email : String) (c : Candidate) : Bool :=
  c.exam_id == examId && c.email == normEmail email && !c.is_submitted

/-- The candidate row the `POST /start` INSERT writes: trimmed name,
normalized email, snapshotted total marks, start_time = now, unsubmitted,
score and end_time NULL. -/
def freshCand (db : DB) (name email : String) (examId newId : Nat)
    (newToken : String) (now : Nat) : Candidate :=
  { id := newId
    name := jsTrim name
    email := normEmail email
    exam_id := examId
    session_token := newToken
    start_time := now
    end_time := none
    score := none
    total_marks := totalMarksOf db examId
    is_submitted := false }

/-- `POST /start` (`src/routes/exam.js` lines 7-90): validate inputs, look up
the active exam, reject duplicate attempts when the exam prevents them,
resume an unsubmitted session, or insert a fresh session row.  `newId`,
`newToken` and `now` stand for the AUTOINCREMENT id, the generated UUID and
`datetime('now')`.  The UNIQUE constraint on `session_token` makes an INSERT
with a colliding token throw, surfacing as the catch-all server error. -/
def startSession (db : DB) (name email exam_code : String)
    (newId : Nat) (newToken : String) (now : Nat) :
    Except ApiError (DB × StartResp) :=
  if name == "" || email == "" || exam_code == "" then
    .error .ValidationError
  else if !emailOk email then
    .error .ValidationError
  else
    match db.exams.find? (activeByCode exam_code) with
    | none => .error .ExamNotFound
    | some exam =>
      if exam.prevent_duplicate_attempts &&
          (db.candidates.find? (submittedFor exam.id email)).isSome then
        .error .DuplicateAttempt
      else
        match db.candidates.find? (ongoingFor exam.id email) with
        | some ongoing =>
            .ok (db,
              { sessionToken := ongoing.session_token
                examTitle := exam.title
                examCode := exam.exam_code
                duration := exam.duration_minutes
                resultMode := exam.result_mode
                startTime := ongoing.start_time })
        | none =>
            if db.candidates.any (fun c => c.session_token == newToken) then
              .error .StorageError
            else
              let dbNew : DB :=
                { db with candidates :=
                    db.candidates ++ [freshCand db name email exam.id newId newToken now] }
              match dbNew.candidates.find? (fun c => c.session_token == newToken) with
              | none => .error .StorageError
              | some cand =>
                  .ok (dbNew,
                    { sessionToken := newToken
                      examTitle := exam.title
                      examCode := exam.exam_code
                      duration := exam.duration_minutes
                      resultMode := exam.result_mode
                      startTime := cand.start_time })

/-- WHERE clause `id = ? AND is_submitted = 0` used by both `POST /answer`
and `POST /submit` to fetch the live session. -/
def liveById (candidateId : Nat) (c : Candidate) : Bool :=
  c.id == candidateId && !c.is_submitted

/-- WHERE clause `candidate_id = ? AND question_id = ?` on `responses`. -/
def respFor (candidateId questionId : Nat) (r : Response) : Bool :=
  r.candidate_id == candidateId && r.question_id == questionId

/-- The `POST /answer` correctness check:
`selectedOption && selectedOption.toUpperCase() === question.correct_option`. -/
def gradeCorrect (q : Question) (sel : Option String) : Bool :=
  optTruthy sel && jsUpper (sel.getD "") == q.correct_option

/-- The `POST /answer` marks computation: 0 without a selection; the
question's marks when correct; minus the exam-level `negative_marking` when
incorrect and that value is positive; otherwise 0. -/
def gradeMarks (exam : Exam) (q : Question) (sel : Option String) : ℚ :=
  if optTruthy sel then
    if gradeCorrect q sel then q.marks
    else if exam.negative_marking > 0 then -exam.negative_marking
    else 0
  else 0

/-- What `POST /answer` persists for the selected option:
`selectedOption || null`. -/
def storedOption (sel : Option String) : Option String :=
  if optTruthy sel then sel else none

/-- The Response row contents written by a `POST /answer` call. -/
def gradedRow (exam : Exam) (q : Question) (candidateId questionId : Nat)
    (sel : Option String) (now : Nat) : Response :=
  { candidate_id := candidateId
    question_id := questionId
    selected_option := storedOption sel
    is_correct := gradeCorrect q sel
    marks_obtained := gradeMarks exam q sel
    answered_at := now }

/-- The row rewrite applied by the `POST /answer` UPDATE statement: overwrite
the graded fields of every row matched by its WHERE clause. -/
def respUpdate (exam : Exam) (q : Question) (candidateId questionId : Nat)
    (sel : Option String) (now : Nat) (r : Response) : Response :=
  if respFor candidateId questionId r then
    { r with
      selected_option := storedOption sel
      is_correct := gradeCorrect q sel
      marks_obtained := gradeMarks exam q sel
      answered_at := now }
  else r

/-- `POST /answer` (`src/routes/exam.js` lines 159-216): grade the selected
option against the question and upsert the Response row for
(session, question).  `now` stands for `datetime('now')`. -/
def recordAnswer (db : DB) (candidateId questionId : Nat)
    (selectedOption : Option String) (now : Nat) : Except ApiError DB :=
  match db.candidates.find? (liveById candidateId) with
  | none => .error .InvalidSession
  | some cand =>
    match db.questions.find? (fun q => q.id == questionId && q.exam_id == cand.exam_id) with
    | none => .error .InvalidQuestion
    | some q =>
      match db.exams.find? (fun ex => ex.id == cand.exam_id) with
      | none => .error .StorageError
      | some exam =>
        if (db.responses.find? (respFor candidateId questionId)).isSome then
          .ok { db with
            responses := db.responses.map
              (respUpdate exam q candidateId questionId selectedOption now) }
        else
          .ok { db with
            responses := db.responses ++
              [gradedRow exam q candidateId questionId selectedOption now] }

/-- `COALESCE(SUM(marks_obtained), 0)` over the session's responses. -/
def responsesTotal (db : DB) (candidateId : Nat) : ℚ :=
  ((db.responses.filter (fun r => r.candidate_id == candidateId)).map
    (·.marks_obtained)).sum

/-- `POST /submit` (`src/routes/exam.js` lines 219-261): finalize the live
session, writing `score = max(0, sum of marks_obtained)`, `is_submitted = 1`
and `end_time = now`. -/
def submit (db : DB) (candidateId : Nat) (now : Nat) : Except ApiError DB :=
  match db.candidates.find? (liveById candidateId) with
  | none => .error .InvalidSession
  | some _ =>
    let score : ℚ := max 0 (responsesTotal db candidateId)
    .ok { db with
      candidates := db.candidates.map (fun c =>
        if c.id == candidateId then
          { c with is_submitted := true, end_time := some now, score := some score }
        else c) }

/-- `Number.toFixed(2)` on the values at hand: round to two decimal places. -/
def roundTo2 (q : ℚ) : ℚ := (round (q * 100) : ℤ) / 100

/-- The percentage expression shared by `GET /result` and `GET /leaderboard`:
`total_marks > 0 ? ((score / total_marks) * 100).toFixed(2) : 0`, with a NULL
score coerced to 0 by the JavaScript division. -/
def percentageOf (score : Option ℚ) (totalMarks : ℚ) : ℚ :=
  if totalMarks > 0 then roundTo2 (score.getD 0 / totalMarks * 100) else 0

/-- Body of a `GET /result/:sessionToken` success response: either the score
fields or a can-not-view message. -/
inductive ResultView where
  | visible (name examTitle : String) (score : Option ℚ) (totalMarks : ℚ)
      (percentage : ℚ)
  | hidden (message : String)
deriving DecidableEq, Repr

/-- `GET /result/:sessionToken` (`src/routes/exam.js` lines 264-321): join the
session with its exam, require finalization, then resolve visibility from the
exam's `result_mode`. -/
def getResult (db : DB) (token : String) : Except ApiError ResultView :=
  match db.candidates.find? (fun c => c.session_token == token) with
  | none => .error .ResultNotFound
  | some c =>
    match db.exams.find? (fun ex => ex.id == c.exam_id) with
    | none => .error .ResultNotFound
    | some exam =>
      if !c.is_submitted then .error .NotSubmitted
      else if exam.result_mode == "private" || exam.result_mode == "public" then
        .ok (.visible c.name exam.title c.score c.total_marks
          (percentageOf c.score c.total_marks))
      else if exam.result_mode == "after_publish" then
        if exam.results_published == 1 then
          .ok (.visible c.name exam.title c.score c.total_marks
            (percentageOf c.score c.total_marks))
        else
          .ok (.hidden "Results will be published by the administrator")
      else
        .ok (.hidden "Results are only visible to the administrator")

/-- One emitted leaderboard row. -/
structure LBEntry where
  rank : Nat
  name : String
  score : Option ℚ
  totalMarks : ℚ
  percentage : ℚ
deriving DecidableEq, Repr

/-- SQLite comparison of possibly-NULL scores: NULL sorts below every
value. -/
def optQLt : Option ℚ → Option ℚ → Bool
  | none, none => false
  | none, some _ => true
  | some _, none => false
  | some a, some b => decide (a < b)

/-- SQLite comparison of possibly-NULL end times, non-strict: NULL sorts
below every value. -/
def optTimeLe : Option Nat → Option Nat → Bool
  | none, _ => true
  | some _, none => false
  | some a, some b => decide (a ≤ b)

/-- The `ORDER BY score DESC, end_time ASC` key as a total preorder on
candidate rows: `a` comes no later than `b`. -/
def lbLE (a b : Candidate) : Bool :=
  optQLt b.score a.score ||
    (decide (a.score = b.score) && optTimeLe a.end_time b.end_time)

/-- The leaderboard query:
`SELECT ... FROM candidates WHERE exam_id = ? AND is_submitted = 1
ORDER BY score DESC, end_time ASC`. -/
def lbRows (db : DB) (examId : Nat) : List Candidate :=
  (db.candidates.filter (fun c => c.exam_id == examId && c.is_submitted)).mergeSort lbLE

/-- Availability gate of `GET /leaderboard/:examCode`: the negation of
`result_mode !== 'public' && !(result_mode === 'after_publish' &&
results_published)`. -/
def lbAvailable (ex : Exam) : Bool :=
  ex.result_mode == "public" ||
    (ex.result_mode == "after_publish" && ex.results_published != 0)

/-- Mapping from a sorted candidate row and its zero-based index to the
emitted leaderboard entry. -/
def lbEntryOf (i : Nat) (c : Candidate) : LBEntry :=
  { rank := i + 1
    name := c.name
    score := c.score
    totalMarks := c.total_marks
    percentage := percentageOf c.score c.total_marks }

/-- `GET /leaderboard/:examCode` (`src/routes/exam.js` lines 324-355): the
exam lookup has no `is_active` condition; the gate only checks the result
mode, then submitted sessions are ranked in sorted order. -/
def leaderboard (db : DB) (examCode : String) :
    Except ApiError (String × List LBEntry) :=
  match db.exams.find? (fun ex => ex.exam_code == jsUpper examCode) with
  | none => .error .ExamNotFound
  | some exam =>
    if !lbAvailable exam then
      .error .LeaderboardUnavailable
    else
      .ok (exam.title, (lbRows db exam.id).mapIdx lbEntryOf)

/-! ### Shared helper lemmas -/

theorem respFor_respUpdate (exam : Exam) (q : Question)
    (candidateId questionId c' q' : Nat) (sel : Option String) (now : Nat)
    (r : Response) :
    respFor c' q' (respUpdate exam q candidateId questionId sel now r) =
      respFor c' q' r := by
  unfold respUpdate respFor
  split <;> simp

/-- At most one Response row per (session, question) pair: the invariant
enforced by the unique index `idx_responses_unique` of `src/database/db.js`. -/
def respUnique (db : DB) : Prop :=
  ∀ c' q' : Nat, (db.responses.filter (respFor c' q')).length ≤ 1

end MCQ

deriving instance DecidableEq for Except

namespace MCQ

/-! ### Concrete fixtures used by the closed witnesses -/

/-- A public, active exam with negative marking 1/2 and duplicate
prevention on. -/
def exPub : Exam :=
  { id := 1
    title := "T"
    exam_code := "ABC"
    duration_minutes := 30
    negative_marking := mkRat 1 2
    result_mode := "public"
    allow_back_navigation := true
    shuffle_questions := false
    prevent_duplicate_attempts := true
    is_active := true
    results_published := 0 }

/-- A two-mark question of `exPub` whose correct option is C. -/
def q10 : Question :=
  { id := 10
    exam_id := 1
    question_text := "q"
    correct_option := "C"
    marks := 2 }

/-- An unsubmitted session of `exPub`. -/
def candLive : Candidate :=
  { id := 7
    name := "A"
    email := "a@b.c"
    exam_id := 1
    session_token := "t"
    start_time := 5
    end_time := none
    score := none
    total_marks := 2
    is_submitted := false }

/-- A graded wrong answer of `candLive` on `q10` under negative marking. -/
def respWrong : Response :=
  { candidate_id := 7
    question_id := 10
    selected_option := some "a"
    is_correct := false
    marks_obtained := mkRat (-1) 2
    answered_at := 6 }

/-- Store with one live session holding one negatively marked response. -/
def dbLive : DB :=
  { exams := [exPub]
    questions := [q10]
    candidates := [candLive]
    responses := [respWrong] }

/-! ### C1 -/

/-- C1: for a session satisfying the finalization precondition (live row
found, not yet submitted), `POST /submit` succeeds and stores
`score = max 0 (sum of marks_obtained over the session's responses)` —
which is 0 when there are no responses and 0 when the sum is negative —
and sets `is_submitted = true` and `end_time = now` on the session. -/
theorem submit_finalizes (db : DB) (cid : Nat) (now : Nat) (cand : Candidate)
    (h : db.candidates.find? (liveById cid) = some cand) :
    ∃ db', submit db cid now = .ok db' ∧
      (∃ c' ∈ db'.candidates, c'.id = cid) ∧
      (∀ c' ∈ db'.candidates, c'.id = cid →
        c'.score = some (max 0 (responsesTotal db cid)) ∧
        c'.is_submitted = true ∧ c'.end_time = some now) ∧
      (db.responses.filter (fun r => r.candidate_id == cid) = [] →
        max 0 (responsesTotal db cid) = 0) ∧
      (responsesTotal db cid < 0 → max 0 (responsesTotal db cid) = 0) := by
  have hmem : cand ∈ db.candidates := List.mem_of_find?_eq_some h
  have hp : liveById cid cand = true := List.find?_some h
  have hid : cand.id = cid := by
    have := (Bool.and_eq_true _ _).mp hp |>.1
    exact beq_iff_eq.mp this
  refine ⟨_, by unfold submit; rw [h], ?_, ?_, ?_, ?_⟩
  · exact ⟨_, List.mem_map_of_mem _ hmem, by simp [hid]⟩
  · intro c' hc' hcid
    rcases List.mem_map.mp hc' with ⟨a, _, rfl⟩
    by_cases ha : (a.id == cid) = true
    · simp [ha]
    · simp only [ha, if_false] at hcid ⊢
      exact absurd (beq_iff_eq.mpr hcid) ha
  · intro hempty
    have h0 : responsesTotal db cid = 0 := by
      unfold responsesTotal
      rw [hempty]
      simp
    rw [h0]
    simp
  · intro hneg
    exact max_eq_left hneg.le

/-- Closed witness for `submit_finalizes` on `dbLive`: the negative running
total −1/2 is clamped to score 0. -/
theorem submit_finalizes_witness :
    dbLive.candidates.find? (liveById 7) = some candLive ∧
    ∃ db', submit dbLive 7 9 = .ok db' ∧
      (∃ c' ∈ db'.candidates, c'.id = 7) ∧
      (∀ c' ∈ db'.candidates, c'.id = 7 →
        c'.score = some (max 0 (responsesTotal dbLive 7)) ∧
        c'.is_submitted = true ∧ c'.end_time = some 9) ∧
      (dbLive.responses.filter (fun r => r.candidate_id == 7) = [] →
        max 0 (responsesTotal dbLive 7) = 0) ∧
      (responsesTotal dbLive 7 < 0 → max 0 (responsesTotal dbLive 7) = 0) :=
  ⟨by decide, submit_finalizes dbLive 7 9 candLive (by decide)⟩

/-! ### C9 -/

/-- C9: a successful `POST /answer` call rewrites only the `responses`
table; the `candidates` rows (hence the session's score, start_time,
total_marks, is_submitted and end_time), the `exams` rows and the
`questions` rows are identical before and after the call. -/
theorem recordAnswer_frame (db db' : DB) (cid qid : Nat) (sel : Option String)
    (now : Nat) (h : recordAnswer db cid qid sel now = .ok db') :
    db'.candidates = db.candidates ∧ db'.exams = db.exams ∧
      db'.questions = db.questions := by
  unfold recordAnswer at h
  split at h
  · simp at h
  split at h
  · simp at h
  split at h
  · simp at h
  split at h <;>
  · simp only [Except.ok.injEq] at h
    subst h
    exact ⟨rfl, rfl, rfl⟩

/-- Closed witness for `recordAnswer_frame`: re-answering on `dbLive` leaves
the candidates table unchanged. -/
theorem recordAnswer_frame_witness :
    recordAnswer dbLive 7 10 (some "c") 8 =
      .ok { dbLive with
        responses := [{ candidate_id := 7
                        question_id := 10
                        selected_option := some "c"
                        is_correct := true
                        marks_obtained := 2
                        answered_at := 8 }] } ∧
    ({ dbLive with
        responses := [{ candidate_id := 7
                        question_id := 10
                        selected_option := some "c"
                        is_correct := true
                        marks_obtained := 2
                        answered_at := 8 }] } : DB).candidates = dbLive.candidates :=
  ⟨by decide, (recordAnswer_frame dbLive _ 7 10 (some "c") 8 (by decide)).1⟩

end MCQ

namespace MCQ

/-! ### More shared helper lemmas -/

theorem filter_map_pred_inv {α : Type} (p : α → Bool) (f : α → α)
    (hf : ∀ a, p (f a) = p a) (l : List α) :
    (l.map f).filter p = (l.filter p).map f := by
  induction l with
  | nil => rfl
  | cons a t ih =>
    simp only [List.map_cons, List.filter_cons, hf a]
    by_cases hpa : p a = true
    · simp [hpa, ih]
    · simp [hpa, ih]

theorem length_le_one_eq_singleton {α : Type} {l : List α} {a : α}
    (hlen : l.length ≤ 1) (ha : a ∈ l) : l = [a] := by
  cases l with
  | nil => cases ha
  | cons x t =>
    cases t with
    | nil =>
      have hx : a = x := by simpa using ha
      rw [hx]
    | cons y s =>
      simp at hlen

theorem respUpdate_of_pair (exam : Exam) (q : Question) (cid qid : Nat)
    (sel : Option String) (now : Nat) (r : Response)
    (hr : respFor cid qid r = true) :
    respUpdate exam q cid qid sel now r = gradedRow exam q cid qid sel now := by
  have h1 : r.candidate_id = cid :=
    beq_iff_eq.mp ((Bool.and_eq_true _ _).mp hr).1
  have h2 : r.question_id = qid :=
    beq_iff_eq.mp ((Bool.and_eq_true _ _).mp hr).2
  cases r
  simp only [respUpdate, hr, if_true, gradedRow]
  simp_all

theorem respFor_gradedRow (exam : Exam) (q : Question) (cid qid : Nat)
    (sel : Option String) (now : Nat) :
    respFor cid qid (gradedRow exam q cid qid sel now) = true := by
  simp [respFor, gradedRow]

theorem gradeMarks_no_selection (exam : Exam) (q : Question)
    (sel : Option String) (h : optTruthy sel = false) :
    gradeMarks exam q sel = 0 := by
  unfold gradeMarks
  simp [h]

theorem gradeMarks_of_correct (exam : Exam) (q : Question) (sel : Option String)
    (h : gradeCorrect q sel = true) : gradeMarks exam q sel = q.marks := by
  have ht : optTruthy sel = true := ((Bool.and_eq_true _ _).mp h).1
  unfold gradeMarks
  simp [ht, h]

theorem gradeMarks_of_wrong_pos (exam : Exam) (q : Question) (sel : Option String)
    (h1 : optTruthy sel = true) (h2 : gradeCorrect q sel = false)
    (h3 : 0 < exam.negative_marking) :
    gradeMarks exam q sel = -exam.negative_marking := by
  unfold gradeMarks
  simp [h1, h2, h3]

theorem gradeMarks_of_wrong_zero (exam : Exam) (q : Question) (sel : Option String)
    (h1 : optTruthy sel = true) (h2 : gradeCorrect q sel = false)
    (h3 : exam.negative_marking = 0) :
    gradeMarks exam q sel = 0 := by
  unfold gradeMarks
  simp [h1, h2, h3]

end MCQ

namespace MCQ

/-! ### C2 -/

/-- C2: on a live session and a question of its exam, `POST /answer` stores a
response whose fields are the graded values of this call; the stored marks
are 0 without a selection, `question.marks` for a correct answer (uppercased
selection equal to `correct_option`), the exam-level `-negative_marking` for
a wrong answer when `negative_marking > 0` (not scaled by the question's own
marks), and 0 for a wrong answer when `negative_marking = 0`. -/
theorem recordAnswer_marks (db : DB) (cid qid : Nat) (sel : Option String)
    (now : Nat) (cand : Candidate) (q : Question) (exam : Exam)
    (hc : db.candidates.find? (liveById cid) = some cand)
    (hq : db.questions.find?
      (fun x => x.id == qid && x.exam_id == cand.exam_id) = some q)
    (he : db.exams.find? (fun x => x.id == cand.exam_id) = some exam) :
    ∃ db', recordAnswer db cid qid sel now = .ok db' ∧
      (∃ r ∈ db'.responses, respFor cid qid r = true) ∧
      (∀ r ∈ db'.responses, respFor cid qid r = true →
        r.selected_option = storedOption sel ∧
        r.is_correct = gradeCorrect q sel ∧
        r.marks_obtained = gradeMarks exam q sel ∧
        r.answered_at = now) ∧
      (optTruthy sel = false → gradeMarks exam q sel = 0) ∧
      (gradeCorrect q sel = true → gradeMarks exam q sel = q.marks) ∧
      (optTruthy sel = true → gradeCorrect q sel = false →
        0 < exam.negative_marking →
        gradeMarks exam q sel = -exam.negative_marking) ∧
      (optTruthy sel = true → gradeCorrect q sel = false →
        exam.negative_marking = 0 → gradeMarks exam q sel = 0) := by
  unfold recordAnswer
  simp only [hc, hq, he]
  by_cases hex : (db.responses.find? (respFor cid qid)).isSome = true
  · rw [if_pos hex]
    obtain ⟨r0, hr0mem, hr0p⟩ := List.find?_isSome.mp hex
    refine ⟨_, rfl, ?_, ?_,
      gradeMarks_no_selection exam q sel, gradeMarks_of_correct exam q sel,
      gradeMarks_of_wrong_pos exam q sel, gradeMarks_of_wrong_zero exam q sel⟩
    · refine ⟨respUpdate exam q cid qid sel now r0,
        List.mem_map_of_mem _ hr0mem, ?_⟩
      rw [respFor_respUpdate]
      exact hr0p
    · intro r hr hp
      rcases List.mem_map.mp hr with ⟨a, _, rfl⟩
      have hpa : respFor cid qid a = true := by
        rwa [respFor_respUpdate] at hp
      rw [respUpdate_of_pair exam q cid qid sel now a hpa]
      exact ⟨rfl, rfl, rfl, rfl⟩
  · rw [if_neg hex]
    have hnone : db.responses.find? (respFor cid qid) = none := by
      cases hfind : db.responses.find? (respFor cid qid) with
      | none => rfl
      | some r => rw [hfind] at hex; simp at hex
    refine ⟨_, rfl, ?_, ?_,
      gradeMarks_no_selection exam q sel, gradeMarks_of_correct exam q sel,
      gradeMarks_of_wrong_pos exam q sel, gradeMarks_of_wrong_zero exam q sel⟩
    · exact ⟨gradedRow exam q cid qid sel now,
        List.mem_append.mpr (Or.inr (by simp)),
        respFor_gradedRow exam q cid qid sel now⟩
    · intro r hr hp
      rcases List.mem_append.mp hr with hl | hnew
      · exact absurd hp (List.find?_eq_none.mp hnone r hl)
      · have : r = gradedRow exam q cid qid sel now := by simpa using hnew
        rw [this]
        exact ⟨rfl, rfl, rfl, rfl⟩

/-- Closed witness for `recordAnswer_marks`: answering B (wrong) on `dbLive`
under exam-level negative marking. -/
theorem recordAnswer_marks_witness :
    (dbLive.candidates.find? (liveById 7) = some candLive ∧
      dbLive.questions.find?
        (fun x => x.id == 10 && x.exam_id == candLive.exam_id) = some q10 ∧
      dbLive.exams.find? (fun x => x.id == candLive.exam_id) = some exPub) ∧
    (∃ db', recordAnswer dbLive 7 10 (some "b") 8 = .ok db' ∧
      (∃ r ∈ db'.responses, respFor 7 10 r = true) ∧
      (∀ r ∈ db'.responses, respFor 7 10 r = true →
        r.selected_option = storedOption (some "b") ∧
        r.is_correct = gradeCorrect q10 (some "b") ∧
        r.marks_obtained = gradeMarks exPub q10 (some "b") ∧
        r.answered_at = 8) ∧
      (optTruthy (some "b") = false → gradeMarks exPub q10 (some "b") = 0) ∧
      (gradeCorrect q10 (some "b") = true →
        gradeMarks exPub q10 (some "b") = q10.marks) ∧
      (optTruthy (some "b") = true → gradeCorrect q10 (some "b") = false →
        0 < exPub.negative_marking →
        gradeMarks exPub q10 (some "b") = -exPub.negative_marking) ∧
      (optTruthy (some "b") = true → gradeCorrect q10 (some "b") = false →
        exPub.negative_marking = 0 → gradeMarks exPub q10 (some "b") = 0)) :=
  ⟨⟨by decide, by decide, by decide⟩,
    recordAnswer_marks dbLive 7 10 (some "b") 8 candLive q10 exPub
      (by decide) (by decide) (by decide)⟩

/-! ### C3 -/

/-- C3: under the at-most-one-row-per-pair invariant of the responses table,
a successful `POST /answer` preserves that invariant and leaves exactly one
Response row for the answered (session, question) pair, whose
selected_option, is_correct, marks_obtained and answered_at all come from
this final call — prior grading is fully replaced, never accumulated. -/
theorem recordAnswer_upsert (db db' : DB) (cid qid : Nat) (sel : Option String)
    (now : Nat) (hu : respUnique db)
    (h : recordAnswer db cid qid sel now = .ok db') :
    respUnique db' ∧
      ∃ cand q exam,
        db.candidates.find? (liveById cid) = some cand ∧
        db.questions.find?
          (fun x => x.id == qid && x.exam_id == cand.exam_id) = some q ∧
        db.exams.find? (fun x => x.id == cand.exam_id) = some exam ∧
        db'.responses.filter (respFor cid qid) =
          [gradedRow exam q cid qid sel now] := by
  unfold recordAnswer at h
  rcases hc : db.candidates.find? (liveById cid) with _ | cand <;>
    simp only [hc] at h
  · simp at h
  rcases hq : db.questions.find?
      (fun x => x.id == qid && x.exam_id == cand.exam_id) with _ | q <;>
    simp only [hq] at h
  · simp at h
  rcases he : db.exams.find? (fun x => x.id == cand.exam_id) with _ | exam <;>
    simp only [he] at h
  · simp at h
  by_cases hex : (db.responses.find? (respFor cid qid)).isSome = true
  · rw [if_pos hex] at h
    simp only [Except.ok.injEq] at h
    subst h
    have hcomm : ∀ c' q' : Nat,
        (db.responses.map (respUpdate exam q cid qid sel now)).filter
            (respFor c' q') =
          (db.responses.filter (respFor c' q')).map
            (respUpdate exam q cid qid sel now) :=
      fun c' q' => filter_map_pred_inv (respFor c' q') _
        (fun a => respFor_respUpdate exam q cid qid c' q' sel now a) _
    constructor
    · intro c' q'
      simp only [hcomm c' q', List.length_map]
      exact hu c' q'
    · refine ⟨cand, q, exam, rfl, hq, he, ?_⟩
      obtain ⟨r0, hmem, hp⟩ := List.find?_isSome.mp hex
      have hsing : db.responses.filter (respFor cid qid) = [r0] :=
        length_le_one_eq_singleton (hu cid qid)
          (List.mem_filter.mpr ⟨hmem, hp⟩)
      simp only [hcomm cid qid, hsing, List.map_cons, List.map_nil]
      rw [respUpdate_of_pair exam q cid qid sel now r0 hp]
  · rw [if_neg hex] at h
    simp only [Except.ok.injEq] at h
    subst h
    have hnone : db.responses.find? (respFor cid qid) = none := by
      cases hfind : db.responses.find? (respFor cid qid) with
      | none => rfl
      | some r => rw [hfind] at hex; simp at hex
    have hfilter : db.responses.filter (respFor cid qid) = [] :=
      List.filter_eq_nil_iff.mpr (List.find?_eq_none.mp hnone)
    constructor
    · intro c' q'
      rw [List.filter_append]
      by_cases hpair : c' = cid ∧ q' = qid
      · rcases hpair with ⟨rfl, rfl⟩
        rw [hfilter]
        simpa using List.length_filter_le (respFor c' q')
          [gradedRow exam q c' q' sel now]
      · have hg : respFor c' q' (gradedRow exam q cid qid sel now) = false := by
          simp only [respFor, gradedRow, Bool.and_eq_false_iff]
          rcases not_and_or.mp hpair with hne | hne
          · exact Or.inl (by simp [beq_iff_eq]; exact fun hh => hne hh.symm)
          · exact Or.inr (by simp [beq_iff_eq]; exact fun hh => hne hh.symm)
        simp only [List.filter_cons, hg, Bool.false_eq_true, if_false,
          List.filter_nil, List.append_nil]
        exact hu c' q'
    · refine ⟨cand, q, exam, rfl, hq, he, ?_⟩
      rw [List.filter_append, hfilter]
      simp [respFor_gradedRow exam q cid qid sel now]

/-- The store after the `recordAnswer_upsert` witness call: the single
response row for (7, 10) regraded by the final call. -/
def dbAns : DB :=
  { exams := [exPub]
    questions := [q10]
    candidates := [candLive]
    responses := [{ candidate_id := 7
                    question_id := 10
                    selected_option := some "c"
                    is_correct := true
                    marks_obtained := 2
                    answered_at := 8 }] }

/-- Closed witness for `recordAnswer_upsert`: re-answering C over the earlier
wrong answer on `dbLive` leaves one row for the pair, graded from the final
call only. -/
theorem recordAnswer_upsert_witness :
    respUnique dbLive ∧
      recordAnswer dbLive 7 10 (some "c") 8 = .ok dbAns ∧
      (respUnique dbAns ∧
        ∃ cand q exam,
          dbLive.candidates.find? (liveById 7) = some cand ∧
          dbLive.questions.find?
            (fun x => x.id == 10 && x.exam_id == cand.exam_id) = some q ∧
          dbLive.exams.find? (fun x => x.id == cand.exam_id) = some exam ∧
          dbAns.responses.filter (respFor 7 10) =
            [gradedRow exam q 7 10 (some "c") 8]) :=
  ⟨fun c' q' => List.length_filter_le (respFor c' q') dbLive.responses,
    by decide,
    recordAnswer_upsert dbLive dbAns 7 10 (some "c") 8
      (fun c' q' => List.length_filter_le (respFor c' q') dbLive.responses)
      (by decide)⟩

end MCQ

namespace MCQ

/-- C4: a second `POST /start` with the same inputs, issued right after a
successful one and before any submission, returns the same store and the
same payload — in particular the same session token and the same
start_time — resuming rather than recreating the session. -/
theorem startSession_resume (db db1 : DB) (n e code : String)
    (id1 id2 : Nat) (t1 t2 : String) (now1 now2 : Nat) (r1 : StartResp)
    (h : startSession db n e code id1 t1 now1 = .ok (db1, r1)) :
    startSession db1 n e code id2 t2 now2 = .ok (db1, r1) := by
  unfold startSession at h ⊢
  by_cases hv : (n == "" || e == "" || code == "") = true
  · rw [if_pos hv] at h
    simp at h
  rw [if_neg hv] at h
  rw [if_neg hv]
  by_cases hem : (!emailOk e) = true
  · rw [if_pos hem] at h
    simp at h
  rw [if_neg hem] at h
  rw [if_neg hem]
  rcases hex : db.exams.find? (activeByCode code) with _ | exam <;>
    simp only [hex] at h
  · simp at h
  by_cases hdup : (exam.prevent_duplicate_attempts &&
      (db.candidates.find? (submittedFor exam.id e)).isSome) = true
  · rw [if_pos hdup] at h
    simp at h
  rw [if_neg hdup] at h
  rcases hog : db.candidates.find? (ongoingFor exam.id e) with _ | ongoing <;>
    simp only [hog] at h
  · -- create branch in call 1
    by_cases hany : (db.candidates.any (fun c => c.session_token == t1)) = true
    · rw [if_pos hany] at h
      simp at h
    rw [if_neg hany] at h
    have hnone1 : db.candidates.find? (fun c => c.session_token == t1) = none :=
      List.find?_eq_none.mpr
        (fun x hx hpx => hany (List.any_eq_true.mpr ⟨x, hx, hpx⟩))
    have hfind1 : (db.candidates ++
        [freshCand db n e exam.id id1 t1 now1]).find?
          (fun c => c.session_token == t1) =
        some (freshCand db n e exam.id id1 t1 now1) := by
      rw [List.find?_append, hnone1]
      simp [freshCand]
    simp only [hfind1] at h
    simp only [Except.ok.injEq, Prod.mk.injEq] at h
    obtain ⟨hdb1, hr1⟩ := h
    subst hdb1
    subst hr1
    -- goal: second call on the appended store resumes the fresh row
    have hexams : ({ db with candidates :=
        db.candidates ++ [freshCand db n e exam.id id1 t1 now1] } : DB).exams =
        db.exams := rfl
    simp only [hexams, hex]
    have hdup1 : (exam.prevent_duplicate_attempts &&
        (({ db with candidates :=
            db.candidates ++ [freshCand db n e exam.id id1 t1 now1] } : DB).candidates.find?
          (submittedFor exam.id e)).isSome) = false := by
      by_cases hflag : exam.prevent_duplicate_attempts = true
      · have hsubnone : db.candidates.find? (submittedFor exam.id e) = none := by
          rw [hflag] at hdup
          simp only [Bool.true_and] at hdup
          cases hfind : db.candidates.find? (submittedFor exam.id e) with
          | none => rfl
          | some c => rw [hfind] at hdup; simp at hdup
        show (exam.prevent_duplicate_attempts &&
          ((db.candidates ++ [freshCand db n e exam.id id1 t1 now1]).find?
            (submittedFor exam.id e)).isSome) = false
        rw [List.find?_append, hsubnone]
        simp [submittedFor, freshCand]
      · have hflag' : exam.prevent_duplicate_attempts = false :=
          Bool.eq_false_iff.mpr hflag
        simp [hflag']
    rw [if_neg (by rw [hdup1]; simp)]
    have hog1 : (({ db with candidates :=
        db.candidates ++ [freshCand db n e exam.id id1 t1 now1] } : DB).candidates.find?
          (ongoingFor exam.id e)) =
        some (freshCand db n e exam.id id1 t1 now1) := by
      show (db.candidates ++ [freshCand db n e exam.id id1 t1 now1]).find?
          (ongoingFor exam.id e) = some (freshCand db n e exam.id id1 t1 now1)
      rw [List.find?_append, hog]
      simp [ongoingFor, freshCand]
    simp only [hog1]
    simp [freshCand]
  · -- resume branch in call 1
    simp only [Except.ok.injEq, Prod.mk.injEq] at h
    obtain ⟨hdb1, hr1⟩ := h
    subst hdb1
    subst hr1
    simp only [hex]
    rw [if_neg hdup]
    simp only [hog]

/-- Closed witness for `startSession_resume`: two consecutive starts on
`dbLive` both return the live session's token "t" and start_time 5, leaving
the store unchanged. -/
theorem startSession_resume_witness :
    startSession dbLive "A" "a@b.c" "abc" 8 "t2" 50 =
      .ok (dbLive,
        { sessionToken := "t"
          examTitle := "T"
          examCode := "ABC"
          duration := 30
          resultMode := "public"
          startTime := 5 }) ∧
    startSession dbLive "A" "a@b.c" "abc" 9 "t3" 60 =
      .ok (dbLive,
        { sessionToken := "t"
          examTitle := "T"
          examCode := "ABC"
          duration := 30
          resultMode := "public"
          startTime := 5 }) :=
  ⟨by decide,
    startSession_resume dbLive dbLive "A" "a@b.c" "abc" 8 9 "t2" "t3" 50 60 _
      (by decide)⟩

/-! ### C5 -/

/-- C5: when the exam prevents duplicate attempts and a submitted session
exists for (exam, trimmed-and-lowercased email), `POST /start` fails with
the duplicate-attempt error before reaching any INSERT, so no new session is
created. -/
theorem startSession_duplicate (db : DB) (n e code : String) (newId : Nat)
    (t : String) (now : Nat) (exam : Exam) (c : Candidate)
    (hn : (n == "") = false) (he : (e == "") = false)
    (hcode : (code == "") = false) (hemail : emailOk e = true)
    (hex : db.exams.find? (activeByCode code) = some exam)
    (hflag : exam.prevent_duplicate_attempts = true)
    (hsub : db.candidates.find? (submittedFor exam.id e) = some c) :
    startSession db n e code newId t now = .error .DuplicateAttempt := by
  unfold startSession
  rw [if_neg (by simp [hn, he, hcode])]
  rw [if_neg (by simp [hemail])]
  simp only [hex]
  rw [if_pos (by simp [hflag, hsub])]

/-- A submitted session of `exPub` for the same normalized email as
`candLive`. -/
def candSub : Candidate :=
  { id := 3
    name := "B"
    email := "a@b.c"
    exam_id := 1
    session_token := "u"
    start_time := 1
    end_time := some 2
    score := some 2
    total_marks := 2
    is_submitted := true }

/-- Store of `exPub` holding one submitted session for a@b.c. -/
def dbDup : DB :=
  { exams := [exPub]
    questions := [q10]
    candidates := [candSub]
    responses := [] }

/-- Closed witness for `startSession_duplicate`: a second attempt by
A@B.c (normalizing to a@b.c) on `dbDup` is rejected. -/
theorem startSession_duplicate_witness :
    (("Bob" == "") = false ∧ ("A@B.c" == "") = false ∧
      ("abc" == "") = false ∧ emailOk "A@B.c" = true ∧
      dbDup.exams.find? (activeByCode "abc") = some exPub ∧
      exPub.prevent_duplicate_attempts = true ∧
      dbDup.candidates.find? (submittedFor exPub.id "A@B.c") = some candSub) ∧
    startSession dbDup "Bob" "A@B.c" "abc" 5 "t9" 50 =
      .error .DuplicateAttempt :=
  ⟨⟨by decide, by decide, by decide, by decide, by decide, by decide, by decide⟩,
    startSession_duplicate dbDup "Bob" "A@B.c" "abc" 5 "t9" 50 exPub candSub
      (by decide) (by decide) (by decide) (by decide) (by decide) (by decide)
      (by decide)⟩

end MCQ

namespace MCQ

/-- C6: `GET /result` fails NotSubmitted for an unfinalized session; for a
finalized one the outcome depends only on the exam's result mode: visible
under private and public; under after_publish visible exactly when
results_published is 1 and otherwise hidden with the will-be-published
message; hidden under admin_only. -/
theorem resolveVisibility_spec (db : DB) (token : String) (c : Candidate)
    (exam : Exam)
    (hc : db.candidates.find? (fun x => x.session_token == token) = some c)
    (he : db.exams.find? (fun x => x.id == c.exam_id) = some exam) :
    (c.is_submitted = false → getResult db token = .error .NotSubmitted) ∧
    (c.is_submitted = true →
      ((exam.result_mode = "private" ∨ exam.result_mode = "public") →
        getResult db token = .ok (.visible c.name exam.title c.score
          c.total_marks (percentageOf c.score c.total_marks))) ∧
      (exam.result_mode = "after_publish" →
        (exam.results_published = 1 →
          getResult db token = .ok (.visible c.name exam.title c.score
            c.total_marks (percentageOf c.score c.total_marks))) ∧
        (exam.results_published ≠ 1 →
          getResult db token =
            .ok (.hidden "Results will be published by the administrator"))) ∧
      (exam.result_mode = "admin_only" →
        getResult db token =
          .ok (.hidden "Results are only visible to the administrator"))) := by
  unfold getResult
  simp only [hc, he]
  constructor
  · intro hsub
    simp [hsub]
  · intro hsub
    refine ⟨?_, ?_, ?_⟩
    · rintro (hm | hm) <;> simp [hsub, hm]
    · intro hm
      constructor
      · intro hp
        simp [hsub, hm, hp]
      · intro hp
        have hp' : (exam.results_published == 1) = false :=
          beq_eq_false_iff_ne.mpr hp
        simp [hsub, hm, hp']
    · intro hm
      simp [hsub, hm]

/-- An after_publish exam whose results are not yet published. -/
def exAP : Exam :=
  { id := 2
    title := "U"
    exam_code := "DEF"
    duration_minutes := 30
    negative_marking := 0
    result_mode := "after_publish"
    allow_back_navigation := true
    shuffle_questions := false
    prevent_duplicate_attempts := true
    is_active := true
    results_published := 0 }

/-- A submitted session of `exAP` with no questions (total_marks 0). -/
def candSubAP : Candidate :=
  { id := 4
    name := "D"
    email := "d@e.f"
    exam_id := 2
    session_token := "v"
    start_time := 1
    end_time := some 3
    score := some 0
    total_marks := 0
    is_submitted := true }

/-- Store of `exAP` with the submitted session `candSubAP`. -/
def dbAP : DB :=
  { exams := [exAP]
    questions := []
    candidates := [candSubAP]
    responses := [] }

/-- Closed witness for `resolveVisibility_spec` on `dbAP`. -/
theorem resolveVisibility_spec_witness :
    (dbAP.candidates.find? (fun x => x.session_token == "v") = some candSubAP ∧
      dbAP.exams.find? (fun x => x.id == candSubAP.exam_id) = some exAP) ∧
    ((candSubAP.is_submitted = false →
        getResult dbAP "v" = .error .NotSubmitted) ∧
      (candSubAP.is_submitted = true →
        ((exAP.result_mode = "private" ∨ exAP.result_mode = "public") →
          getResult dbAP "v" = .ok (.visible candSubAP.name exAP.title
            candSubAP.score candSubAP.total_marks
            (percentageOf candSubAP.score candSubAP.total_marks))) ∧
        (exAP.result_mode = "after_publish" →
          (exAP.results_published = 1 →
            getResult dbAP "v" = .ok (.visible candSubAP.name exAP.title
              candSubAP.score candSubAP.total_marks
              (percentageOf candSubAP.score candSubAP.total_marks))) ∧
          (exAP.results_published ≠ 1 →
            getResult dbAP "v" =
              .ok (.hidden "Results will be published by the administrator"))) ∧
        (exAP.result_mode = "admin_only" →
          getResult dbAP "v" =
            .ok (.hidden "Results are only visible to the administrator")))) :=
  ⟨⟨by decide, by decide⟩,
    resolveVisibility_spec dbAP "v" candSubAP exAP (by decide) (by decide)⟩

end MCQ

namespace MCQ

/-! ### C10 -/

/-- C10: the leaderboard exam lookup carries no is_active condition, so for a
deactivated exam whose result mode permits it the leaderboard still answers,
while `POST /start` for the same code fails ExamNotFound because its lookup
demands `is_active = 1`. -/
theorem leaderboard_ignores_inactive (db : DB) (code n e : String)
    (newId : Nat) (t : String) (now : Nat) (exam : Exam)
    (hfind : db.exams.find? (fun x => x.exam_code == jsUpper code) = some exam)
    (hinactive : exam.is_active = false)
    (havail : lbAvailable exam = true)
    (hnoactive : db.exams.find? (activeByCode code) = none)
    (hn : (n == "") = false) (he : (e == "") = false)
    (hcode : (code == "") = false) (hemail : emailOk e = true) :
    leaderboard db code =
      .ok (exam.title, (lbRows db exam.id).mapIdx lbEntryOf) ∧
    startSession db n e code newId t now = .error .ExamNotFound := by
  constructor
  · unfold leaderboard
    simp only [hfind]
    rw [if_neg (by simp [havail])]
  · unfold startSession
    rw [if_neg (by simp [hn, he, hcode])]
    rw [if_neg (by simp [hemail])]
    simp only [hnoactive]

/-- A deactivated exam in public result mode. -/
def exInact : Exam :=
  { id := 5
    title := "V"
    exam_code := "GHI"
    duration_minutes := 30
    negative_marking := 0
    result_mode := "public"
    allow_back_navigation := true
    shuffle_questions := false
    prevent_duplicate_attempts := true
    is_active := false
    results_published := 0 }

/-- Store holding only the deactivated exam `exInact`. -/
def dbInact : DB :=
  { exams := [exInact]
    questions := []
    candidates := []
    responses := [] }

/-- Closed witness for `leaderboard_ignores_inactive` on `dbInact`. -/
theorem leaderboard_ignores_inactive_witness :
    (dbInact.exams.find? (fun x => x.exam_code == jsUpper "ghi") = some exInact ∧
      exInact.is_active = false ∧ lbAvailable exInact = true ∧
      dbInact.exams.find? (activeByCode "ghi") = none) ∧
    (leaderboard dbInact "ghi" =
      .ok (exInact.title, (lbRows dbInact exInact.id).mapIdx lbEntryOf) ∧
    startSession dbInact "Bob" "a@b.c" "ghi" 5 "t9" 50 =
      .error .ExamNotFound) :=
  ⟨⟨by decide, by decide, by decide, by decide⟩,
    leaderboard_ignores_inactive dbInact "ghi" "Bob" "a@b.c" 5 "t9" 50 exInact
      (by decide) (by decide) (by decide) (by decide) (by decide) (by decide)
      (by decide) (by decide)⟩

end MCQ

namespace MCQ

/-! ### Order lemmas for the leaderboard key -/

theorem optQLt_trans {x y z : Option ℚ} (h1 : optQLt x y = true)
    (h2 : optQLt y z = true) : optQLt x z = true := by
  rcases x with _ | a <;> rcases y with _ | b <;> rcases z with _ | c <;>
    simp [optQLt] at h1 h2 ⊢
  exact lt_trans h1 h2

theorem optQLt_trichotomy (x y : Option ℚ) :
    optQLt x y = true ∨ x = y ∨ optQLt y x = true := by
  rcases x with _ | a <;> rcases y with _ | b <;> simp [optQLt]
  exact lt_trichotomy a b

theorem optTimeLe_trans {x y z : Option Nat} (h1 : optTimeLe x y = true)
    (h2 : optTimeLe y z = true) : optTimeLe x z = true := by
  rcases x with _ | a <;> rcases y with _ | b <;> rcases z with _ | c <;>
    simp [optTimeLe] at h1 h2 ⊢
  omega

theorem optTimeLe_total (x y : Option Nat) :
    (optTimeLe x y || optTimeLe y x) = true := by
  rcases x with _ | a <;> rcases y with _ | b <;> simp [optTimeLe]
  exact Nat.le_total a b

theorem lbLE_total (a b : Candidate) : (lbLE a b || lbLE b a) = true := by
  unfold lbLE
  rcases optQLt_trichotomy b.score a.score with h | h | h
  · simp [h]
  · have h1 : decide (a.score = b.score) = true := decide_eq_true h.symm
    have h2 : decide (b.score = a.score) = true := decide_eq_true h
    rcases Bool.or_eq_true_iff.mp (optTimeLe_total a.end_time b.end_time) with ht | ht
    · simp [h1, ht]
    · simp [h2, ht]
  · simp [h]

theorem lbLE_trans (a b c : Candidate) (h1 : lbLE a b = true)
    (h2 : lbLE b c = true) : lbLE a c = true := by
  unfold lbLE at h1 h2 ⊢
  rcases Bool.or_eq_true_iff.mp h1 with h1a | h1b <;>
    rcases Bool.or_eq_true_iff.mp h2 with h2a | h2b
  · exact Bool.or_eq_true_iff.mpr (Or.inl (optQLt_trans h2a h1a))
  · have hbc : b.score = c.score :=
      of_decide_eq_true ((Bool.and_eq_true _ _).mp h2b).1
    exact Bool.or_eq_true_iff.mpr (Or.inl (by rw [← hbc]; exact h1a))
  · have hab : a.score = b.score :=
      of_decide_eq_true ((Bool.and_eq_true _ _).mp h1b).1
    exact Bool.or_eq_true_iff.mpr (Or.inl (by rw [hab]; exact h2a))
  · obtain ⟨hab, hta⟩ := (Bool.and_eq_true _ _).mp h1b
    obtain ⟨hbc, htb⟩ := (Bool.and_eq_true _ _).mp h2b
    refine Bool.or_eq_true_iff.mpr (Or.inr ((Bool.and_eq_true _ _).mpr ⟨?_, ?_⟩))
    · exact decide_eq_true ((of_decide_eq_true hab).trans (of_decide_eq_true hbc))
    · exact optTimeLe_trans hta htb

theorem mapIdx_rank (l : List Candidate) :
    ((l.mapIdx lbEntryOf).map (fun x => x.rank)) =
      List.range' 1 l.length := by
  apply List.ext_getElem
  · simp [List.length_mapIdx, List.length_range']
  · intro i h1 h2
    simp [List.getElem_map, List.getElem_mapIdx, List.getElem_range', lbEntryOf]
    omega

/-! ### C7 -/

/-- C7: the leaderboard answers only when the exam's result mode is public,
or after_publish with results published, failing LeaderboardUnavailable
otherwise; when it answers, its rows are a permutation of exactly the
submitted sessions of the exam, arranged so that each row is no worse than
the next under the score-descending, end_time-ascending key, and the emitted
ranks are the strict sequence 1..N. -/
theorem leaderboard_spec (db : DB) (code : String) (exam : Exam)
    (hfind : db.exams.find? (fun x => x.exam_code == jsUpper code) = some exam) :
    (¬(exam.result_mode = "public" ∨
        (exam.result_mode = "after_publish" ∧ exam.results_published ≠ 0)) →
      leaderboard db code = .error .LeaderboardUnavailable) ∧
    ((exam.result_mode = "public" ∨
        (exam.result_mode = "after_publish" ∧ exam.results_published ≠ 0)) →
      leaderboard db code =
        .ok (exam.title, (lbRows db exam.id).mapIdx lbEntryOf) ∧
      (lbRows db exam.id).Perm
        (db.candidates.filter (fun c => c.exam_id == exam.id && c.is_submitted)) ∧
      List.Pairwise (fun a b => lbLE a b = true) (lbRows db exam.id) ∧
      ((lbRows db exam.id).mapIdx lbEntryOf).map (fun x => x.rank) =
        List.range' 1 (lbRows db exam.id).length) := by
  have havail : lbAvailable exam = true ↔
      (exam.result_mode = "public" ∨
        (exam.result_mode = "after_publish" ∧ exam.results_published ≠ 0)) := by
    unfold lbAvailable
    simp [Bool.or_eq_true, Bool.and_eq_true, beq_iff_eq, bne_iff_ne]
  constructor
  · intro hno
    unfold leaderboard
    simp only [hfind]
    rw [if_pos (by simp [(Bool.eq_false_iff).mpr (fun hh => hno (havail.mp hh))])]
  · intro hyes
    refine ⟨?_, ?_, ?_, mapIdx_rank (lbRows db exam.id)⟩
    · unfold leaderboard
      simp only [hfind]
      rw [if_neg (by simp [havail.mpr hyes])]
    · exact List.mergeSort_perm _ lbLE
    · exact List.sorted_mergeSort (lbLE_trans) (lbLE_total) _

/-- Closed witness for `leaderboard_spec` on `dbLive` (mode public). -/
theorem leaderboard_spec_witness :
    dbLive.exams.find? (fun x => x.exam_code == jsUpper "abc") = some exPub ∧
    ((¬(exPub.result_mode = "public" ∨
        (exPub.result_mode = "after_publish" ∧ exPub.results_published ≠ 0)) →
      leaderboard dbLive "abc" = .error .LeaderboardUnavailable) ∧
    ((exPub.result_mode = "public" ∨
        (exPub.result_mode = "after_publish" ∧ exPub.results_published ≠ 0)) →
      leaderboard dbLive "abc" =
        .ok (exPub.title, (lbRows dbLive exPub.id).mapIdx lbEntryOf) ∧
      (lbRows dbLive exPub.id).Perm
        (dbLive.candidates.filter
          (fun c => c.exam_id == exPub.id && c.is_submitted)) ∧
      List.Pairwise (fun a b => lbLE a b = true) (lbRows dbLive exPub.id) ∧
      ((lbRows dbLive exPub.id).mapIdx lbEntryOf).map (fun x => x.rank) =
        List.range' 1 (lbRows dbLive exPub.id).length)) :=
  ⟨by decide, leaderboard_spec dbLive "abc" exPub (by decide)⟩

end MCQ

namespace MCQ

theorem percentageOf_pos (s : Option ℚ) (tm : ℚ) (h : 0 < tm) :
    percentageOf s tm = roundTo2 (s.getD 0 / tm * 100) := by
  unfold percentageOf
  rw [if_pos h]

theorem percentageOf_zero (s : Option ℚ) : percentageOf s 0 = 0 := by
  unfold percentageOf
  simp

/-! ### C8 -/

/-- C8: every percentage a visible result or a leaderboard entry exposes
equals score divided by total marks times 100 rounded to two decimals, and
is 0 when the total is 0 — the zero-questions case raises no division
error. -/
theorem percentage_spec :
    (∀ (db : DB) (token nm title : String) (s : Option ℚ) (tm p : ℚ),
      getResult db token = .ok (.visible nm title s tm p) →
        (0 < tm → p = roundTo2 (s.getD 0 / tm * 100)) ∧ (tm = 0 → p = 0)) ∧
    (∀ (db : DB) (code title : String) (entries : List LBEntry) (e : LBEntry),
      leaderboard db code = .ok (title, entries) → e ∈ entries →
        (0 < e.totalMarks →
          e.percentage = roundTo2 (e.score.getD 0 / e.totalMarks * 100)) ∧
        (e.totalMarks = 0 → e.percentage = 0)) := by
  constructor
  · intro db token nm title s tm p h
    unfold getResult at h
    split at h
    · simp at h
    split at h
    · simp at h
    split at h
    · simp at h
    split at h
    · simp only [Except.ok.injEq, ResultView.visible.injEq] at h
      obtain ⟨_, _, hs, htm, hp⟩ := h
      subst hs
      subst htm
      subst hp
      constructor
      · intro hpos
        exact (percentageOf_pos _ _ hpos).symm ▸ rfl
      · intro hz
        rw [hz, percentageOf_zero]
    split at h
    · split at h
      · simp only [Except.ok.injEq, ResultView.visible.injEq] at h
        obtain ⟨_, _, hs, htm, hp⟩ := h
        subst hs
        subst htm
        subst hp
        constructor
        · intro hpos
          exact (percentageOf_pos _ _ hpos).symm ▸ rfl
        · intro hz
          rw [hz, percentageOf_zero]
      · simp at h
    · simp at h
  · intro db code title entries e h hmem
    unfold leaderboard at h
    split at h
    · simp at h
    split at h
    · simp at h
    simp only [Except.ok.injEq, Prod.mk.injEq] at h
    obtain ⟨-, hent⟩ := h
    subst hent
    rcases List.mem_mapIdx.mp hmem with ⟨i, hi, hfe⟩
    subst hfe
    constructor
    · intro hpos
      show percentageOf _ _ = _
      exact percentageOf_pos _ _ hpos
    · intro hz
      show percentageOf _ _ = 0
      have htm : (lbRows db _)[i].total_marks = 0 := hz
      rw [htm, percentageOf_zero]

/-- A public-mode exam with no questions, so its sessions have total
marks 0. -/
def exPub0 : Exam :=
  { id := 6
    title := "W"
    exam_code := "JKL"
    duration_minutes := 30
    negative_marking := 0
    result_mode := "public"
    allow_back_navigation := true
    shuffle_questions := false
    prevent_duplicate_attempts := true
    is_active := true
    results_published := 0 }

/-- A submitted session of `exPub0` with total_marks 0. -/
def candSub0 : Candidate :=
  { id := 8
    name := "E"
    email := "e@f.g"
    exam_id := 6
    session_token := "w"
    start_time := 1
    end_time := some 2
    score := some 0
    total_marks := 0
    is_submitted := true }

/-- Store of the zero-question public exam and its submitted session. -/
def dbPub0 : DB :=
  { exams := [exPub0]
    questions := []
    candidates := [candSub0]
    responses := [] }

/-- Closed witness for `percentage_spec`: the visible result of the
zero-question exam reports percentage 0 with no division error. -/
theorem percentage_spec_witness :
    getResult dbPub0 "w" = .ok (.visible "E" "W" (some 0) 0 0) ∧
    ((0 < (0:ℚ) → (0:ℚ) = roundTo2 ((some (0:ℚ)).getD 0 / 0 * 100)) ∧
      ((0:ℚ) = 0 → (0:ℚ) = 0)) :=
  ⟨by decide, percentage_spec.1 dbPub0 "w" "E" "W" (some 0) 0 0 (by decide)⟩

end MCQ
